import Mathlib

/-
Verification of the retrieval core of the quantum-mechanics RAG repository.

The definitions below are a shallow embedding of `src/RAG_engine.py`,
`src/rebuild_vector_store.py` and the `rag` handler of `src/main.py`.
Text is modelled as `String` (Python `len` counts code points, as does
`String.length`); Python exceptions are modelled with `Except String`;
the filesystem state relevant to the index is modelled by `FsState`
(index directory plus the two required files `index.faiss` / `index.pkl`).
The chunk splitter lives in the third-party langchain library, so it is
modelled from the spec, with its configuration taken from the source.
-/

set_option maxRecDepth 4096

namespace RAGEngine

/-! ### Formatter: `format_latex` (src/RAG_engine.py lines 72-99) -/

/-- The whitespace characters stripped by Python `str.strip()`. -/
def isPySpace (c : Char) : Bool :=
  c = ' ' || c = '\t' || c = '\n' || c = '\r' || c = '\x0b' || c = '\x0c'

/-- Python `line.strip()`: drop leading and trailing whitespace. -/
def pyStrip (s : String) : String :=
  String.mk (((s.data.dropWhile isPySpace).reverse.dropWhile isPySpace).reverse)

/-- The fixed mathematical symbols scanned by `format_latex` (line 86). -/
def mathChars : List Char := ['=', '^', '_', '∫', '∑', '∂', '∆', '√']

/-- `has_math`: the line contains one of the fixed mathematical symbols. -/
def hasMathChar (s : String) : Bool :=
  mathChars.any (fun c => s.data.contains c)

/-- The regex `\\[a-zA-Z]+` of line 87: a backslash immediately followed by
an ASCII letter occurs somewhere in the character list. -/
def hasLatexCmd : List Char → Bool
  | [] => false
  | ['\\'] => false
  | '\\' :: c :: rest => if c.isAlpha then true else hasLatexCmd (c :: rest)
  | _ :: rest => hasLatexCmd rest

/-- `has_greek` of line 87. -/
def hasLatexCmdStr (s : String) : Bool := hasLatexCmd s.data

/-- `has_math or has_greek` (line 89). -/
def hasMarker (s : String) : Bool := hasMathChar s || hasLatexCmdStr s

/-- Python `line.count(c)`. -/
def countChar (c : Char) (s : String) : Nat :=
  (s.data.filter (fun d => d = c)).length

/-- The per-line classification of `format_latex` (lines 89-97), applied to an
already-stripped, non-blank line. -/
def formatLine (line : String) : String :=
  if hasMarker line then
    if 1 ≤ countChar '=' line ∧ line.length < 100 then "$$" ++ line ++ "$$"
    else "$" ++ line ++ "$"
  else line

/-- The loop body of `format_latex` over the line list: strip each line,
drop blanks, classify the rest (lines 80-97). -/
def formatLines (lines : List String) : List String :=
  lines.filterMap (fun raw =>
    let l := pyStrip raw
    if l = "" then none else some (formatLine l))

/-- Python `text.split(c)` over a character list, for a one-character
separator: keeps empty pieces, as Python does. -/
def splitNl : List Char → List (List Char)
  | [] => [[]]
  | c :: cs =>
    match splitNl cs with
    | [] => [[]]
    | r :: rs => if c = '\n' then [] :: r :: rs else (c :: r) :: rs

/-- Python `sep.join(lines)`. -/
def joinSep (sep : String) : List String → String
  | [] => ""
  | [x] => x
  | x :: y :: ys => x ++ sep ++ joinSep sep (y :: ys)

/-- `format_latex` (src/RAG_engine.py lines 72-99). -/
def format_latex (text : String) : String :=
  joinSep "\n" (formatLines ((splitNl text.data).map String.mk))

/-! ### Filesystem model: the index directory and its two required files -/

/-- Presence of the index directory and of the two required index files. -/
structure FsState where
  dirExists : Bool
  faissExists : Bool
  pklExists : Bool
deriving DecidableEq

/-- `vector_store_exists` (src/RAG_engine.py lines 159-164): the directory
and both required files are present. -/
def vector_store_exists (fs : FsState) : Bool :=
  fs.dirExists && (fs.faissExists && fs.pklExists)

/-- The persisted index directory name (src/RAG_engine.py line 23). -/
def VECTOR_STORE_DIR : String := "quantum_index"

/-- The filesystem operations that the save path can perform. -/
inductive FsOp where
  | makedirs : String → FsOp
  | writeFile : String → FsOp
  | rename : String → String → FsOp
deriving DecidableEq

/-- Whether an operation is an atomic move into place. -/
def isRename : FsOp → Bool
  | FsOp.rename _ _ => true
  | _ => false

/-- Whether an operation writes a file directly under `dir`. -/
def writesInto (dir : String) : FsOp → Bool
  | FsOp.writeFile p => dir.data.isPrefixOf p.data
  | _ => false

/-- The filesystem operations of the save step of `create_vector_store`
(src/RAG_engine.py lines 61-62): `os.makedirs(dir, exist_ok=True)` followed
by `vector_store.save_local(dir)`.
Modelled from the spec: `FAISS.save_local` is third-party langchain code;
per the spec's persisted-state layout it writes the index data file
`index.faiss` and the index metadata file `index.pkl` directly into the
given directory. -/
def save_local_ops (dir : String) : List FsOp :=
  [FsOp.makedirs dir,
   FsOp.writeFile (dir ++ "/index.faiss"),
   FsOp.writeFile (dir ++ "/index.pkl")]

/-- Effect of one operation on the index-directory state. A rename into the
directory would atomically install content; no such operation occurs. -/
def applyOp (fs : FsState) : FsOp → FsState
  | FsOp.makedirs d =>
    if d = VECTOR_STORE_DIR then ⟨true, fs.faissExists, fs.pklExists⟩ else fs
  | FsOp.writeFile p =>
    if p = VECTOR_STORE_DIR ++ "/index.faiss" then ⟨fs.dirExists, true, fs.pklExists⟩
    else if p = VECTOR_STORE_DIR ++ "/index.pkl" then ⟨fs.dirExists, fs.faissExists, true⟩
    else fs
  | FsOp.rename _ _ => fs

/-- The empty filesystem: no directory, no files. -/
def fsEmpty : FsState := ⟨false, false, false⟩

/-- A complete persisted index: directory and both files present. -/
def fsFull : FsState := ⟨true, true, true⟩

/-- Directory present but both required files missing. -/
def fsPartial : FsState := ⟨true, false, false⟩

/-- The sequence of filesystem states visited by `rebuild_vector_store.py`:
the initial state; the state after `shutil.rmtree` (lines 14-16, only when
the directory exists); then, when the build pipeline succeeds, the states
after `os.makedirs`, after writing `index.faiss` and after writing
`index.pkl` (the save step of `create_vector_store`). On a build failure
the script catches the exception and stops (lines 40-47). -/
def rebuildStates (fs0 : FsState) (buildOk : Bool) : List FsState :=
  [fs0] ++ (if fs0.dirExists then [fsEmpty] else []) ++
    (if buildOk then [⟨true, false, false⟩, ⟨true, true, false⟩, fsFull] else [])

/-! ### Retrieval service: `retrieve_answer` (src/RAG_engine.py lines 102-155) -/

/-- A retrieved langchain document: chunk text plus metadata. -/
structure Document where
  page_content : String
  source : Option String
  page : Option Nat
deriving DecidableEq

/-- `result.metadata.get('page', 'N/A')` rendered into the block header. -/
def pageStr : Option Nat → String
  | some n => toString n
  | none => "N/A"

/-- One source block (line 147):
`f"**Source {i}** (Page {page}):\n{formatted_content}"`, where the content
is `format_latex(result.page_content.strip())` (lines 140-141). -/
def formatBlock (i : Nat) (d : Document) : String :=
  "**Source " ++ toString i ++ "** (Page " ++ pageStr d.page ++ "):\n"
    ++ format_latex (pyStrip d.page_content)

/-- Python `enumerate(results, i)`. -/
def numberFrom (i : Nat) : List Document → List (Nat × Document)
  | [] => []
  | d :: ds => (i, d) :: numberFrom (i + 1) ds

/-- The `formatted_chunks` list of lines 138-148. -/
def formatBlocks (results : List Document) : List String :=
  (numberFrom 1 results).map (fun p => formatBlock p.1 p.2)

/-- The environment a call of `retrieve_answer` runs in: the filesystem
state and the outcome of each fallible stage. `buildOutcome` is the result
of `create_vector_store()` (line 117), `embedOutcome` of constructing the
embeddings object (line 121), `loadOutcome` of `FAISS.load_local`
(lines 122-126) and `searchOutcome q k` of `similarity_search(q, k)`
(line 129). An `Except.error e` models a raised exception with message
`str(e)`. -/
structure RagEnv where
  fs : FsState
  buildOutcome : Except String Unit
  embedOutcome : Except String Unit
  loadOutcome : Except String Unit
  searchOutcome : String → Nat → Except String (List Document)

/-- Replace the build outcome of an environment. -/
def withBuild (env : RagEnv) (b : Except String Unit) : RagEnv :=
  ⟨env.fs, b, env.embedOutcome, env.loadOutcome, env.searchOutcome⟩

/-- The body of the `try` block of `retrieve_answer` (lines 114-129): build
the store only when `os.path.exists(VECTOR_STORE_DIR)` is false (line 115),
then construct embeddings, load the store and search. The first raised
exception aborts the chain. -/
def ragStages (env : RagEnv) (q : String) (k : Nat) : Except String (List Document) :=
  match (if env.fs.dirExists then Except.ok () else env.buildOutcome) with
  | Except.error e => Except.error e
  | Except.ok _ =>
    match env.embedOutcome with
    | Except.error e => Except.error e
    | Except.ok _ =>
      match env.loadOutcome with
      | Except.error e => Except.error e
      | Except.ok _ => env.searchOutcome q k

/-- `retrieve_answer` (lines 102-155): the stage chain under the
`try`/`except`, with the empty-result message of lines 131-133, the joined
blocks of line 150 and the error string of lines 152-155. -/
def retrieve_answer (env : RagEnv) (q : String) (k : Nat) : String :=
  match ragStages env q k with
  | Except.error e => "Error retrieving information: " ++ e
  | Except.ok results =>
    if results.isEmpty then "No relevant information found in the documents."
    else joinSep "\n\n---\n\n" (formatBlocks results)

/-- The `context` value computed by the `rag` HTTP handler
(src/main.py lines 23-34): `retrieve_answer(query)` with its default
`k = 3`, falling back to a fixed message when the context is empty. -/
def rag_endpoint (env : RagEnv) (q : String) : String :=
  if retrieve_answer env q 3 = "" then "No relevant information found in documents."
  else retrieve_answer env q 3

/-- Environment in which every stage succeeds and the search finds
nothing. -/
def envEmptyIndexSearch : RagEnv :=
  ⟨fsFull, Except.ok (), Except.ok (), Except.ok (), fun _ _ => Except.ok []⟩

/-- Environment with the index directory present but both required files
missing; the build step, were it invoked, would report it ran, and the load
step fails as `FAISS.load_local` does on missing files. -/
def envPartial : RagEnv :=
  ⟨fsPartial, Except.error "create_vector_store was invoked", Except.ok (),
   Except.error "could not load index", fun _ _ => Except.ok []⟩

/-- Environment with the directory present and every stage succeeding. -/
def envDirOnly : RagEnv :=
  ⟨fsPartial, Except.ok (), Except.ok (), Except.ok (), fun _ _ => Except.ok []⟩

/-- Environment with no index directory and a failing build. -/
def envNoDir : RagEnv :=
  ⟨fsEmpty, Except.error "build failed", Except.ok (), Except.ok (),
   fun _ _ => Except.ok []⟩

/-! ### Document loading (src/RAG_engine.py lines 29-44) -/

/-- A page extracted from a source document. -/
structure Page where
  text : String
  source : String
  page : Nat

/-- The loading loop of `create_vector_store` (lines 32-41): skip paths for
which `os.path.exists` is false, otherwise extend `all_docs` with the pages
`PyPDFLoader(path).load()` yields, in path order. -/
def loadAllDocs (fileExists : String → Bool) (loadPdf : String → List Page) :
    List String → List Page
  | [] => []
  | p :: ps =>
    (if fileExists p then loadPdf p else []) ++ loadAllDocs fileExists loadPdf ps

/-- The loading stage including the guard of lines 43-44: raise
`ValueError("No documents loaded from PDFs")` when no pages were loaded. -/
def loadStage (fileExists : String → Bool) (loadPdf : String → List Page)
    (paths : List String) : Except String (List Page) :=
  if (loadAllDocs fileExists loadPdf paths).isEmpty then
    Except.error "No documents loaded from PDFs"
  else Except.ok (loadAllDocs fileExists loadPdf paths)

/-- A file-existence oracle in which exactly `missing.pdf` is absent. -/
def fe0 : String → Bool := fun s => s != "missing.pdf"

/-- A loader yielding one page per existing file. -/
def lp0 : String → List Page := fun s => [⟨"page text", s, 0⟩]

/-! ### Chunker, modelled from the spec (section 4.2); the configuration is
from src/RAG_engine.py lines 47-51 -/

/-- `chunk_size=800` (line 48). -/
def chunkSize : Nat := 800

/-- `chunk_overlap=100` (line 49). -/
def chunkOverlap : Nat := 100

/-- The separator cascade (line 50). -/
def separators : List String := ["\n\n", "\n", ". ", " ", ""]

/-- A one-character string. -/
def singletonStr (c : Char) : String := String.mk [c]

/-- Modelled from the spec: splitting on one separator of the cascade; the
empty separator splits into single characters. -/
def splitBySep (sep : String) (t : String) : List String :=
  if sep = "" then t.data.map singletonStr else t.splitOn sep

/-- Modelled from the spec: "recursively attempt to split text on an
ordered list of separators ... until each resulting piece is ≤ max chunk
size". The langchain `RecursiveCharacterTextSplitter` that implements this
is not part of the repository. -/
def recSplit : List String → String → List String
  | [], t => [t]
  | s :: rest, t =>
    if t.length ≤ chunkSize then [t]
    else (splitBySep s t).flatMap (fun piece => recSplit rest piece)

/-- The trailing `n` characters of a string. -/
def strTakeRight (n : Nat) (s : String) : String :=
  String.mk (s.data.drop (s.data.length - n))

/-- Modelled from the spec: "merge adjacent pieces while the merged length
stays ≤ max size; when moving to the next chunk, retain the trailing 100
characters of the previous chunk as overlap context prefixed onto the next
chunk where it does not exceed max size". Each produced chunk is annotated
as (overlap prefix retained from the previous chunk, new material). -/
def mergeAnnot : List String → String → String → List (String × String)
  | [], ov, body => if ov ++ body = "" then [] else [(ov, body)]
  | p :: ps, ov, body =>
    if (ov ++ body).length + p.length ≤ chunkSize then
      mergeAnnot ps ov (body ++ p)
    else if (strTakeRight chunkOverlap (ov ++ body)).length + p.length ≤ chunkSize then
      (ov, body) :: mergeAnnot ps (strTakeRight chunkOverlap (ov ++ body)) p
    else
      (ov, body) :: mergeAnnot ps "" p

/-- The relation between consecutive annotated chunks: the retained
overlap is at most 100 characters long, is a suffix of the previous chunk
and a prefix of the next chunk. -/
def overlapRel (a b : String × String) : Prop :=
  b.1.length ≤ chunkOverlap ∧ b.1.data <:+ (a.1 ++ a.2).data ∧
    b.1.data <+: (b.1 ++ b.2).data

/-- The annotated chunks of one page text. -/
def pageChunkAnnots (t : String) : List (String × String) :=
  mergeAnnot (recSplit separators t) "" ""

/-- The chunk texts of one page text. -/
def chunkText (t : String) : List String :=
  (pageChunkAnnots t).map (fun ob => ob.1 ++ ob.2)

/-! ### Inputs for the counterexamples -/

/-- Ninety-two spaces. -/
def padSpaces : String := String.mk (List.replicate 92 ' ')

/-- The example equation padded with trailing spaces to length 100. -/
def longEqLine : String := "E = mc^2" ++ padSpaces

/-! ### Helper lemmas -/

theorem str_data_append (a b : String) : (a ++ b).data = a.data ++ b.data := rfl

theorem str_length_append (a b : String) :
    (a ++ b).length = a.length + b.length := by
  show (a ++ b).data.length = a.data.length + b.data.length
  rw [str_data_append]
  exact List.length_append _ _

theorem str_eq_empty_of_length (s : String) (h : s.length = 0) : s = "" := by
  cases s with
  | mk d =>
    cases d with
    | nil => rfl
    | cons c cs => simp [String.length] at h

theorem str_ne_empty_left (a b : String) (h : a ≠ "") : a ++ b ≠ "" := by
  intro hab
  apply h
  have hl := congrArg String.length hab
  rw [str_length_append] at hl
  have h0 : ("" : String).length = 0 := rfl
  rw [h0] at hl
  exact str_eq_empty_of_length a (by omega)

/-! ### C1: persistence of the index -/

/-- C1 counterexample: at the concrete index directory, the save step of
`create_vector_store` performs no move-into-place at all and does write
files directly into the live index directory, so the claimed
write-to-temp-then-move discipline does not hold. -/
theorem save_writes_in_place_cex :
    (save_local_ops "quantum_index").any isRename = false ∧
    (save_local_ops "quantum_index").any (writesInto "quantum_index") = true := by
  decide

/-- C1 amended: the save step creates the index directory if absent and
writes the two index files directly in place, with no rename; run to
completion it yields a full index, but after its first write the metadata
file still has its pre-save content, so a concurrent reader can observe a
partially-written index. -/
theorem save_local_in_place (fs0 : FsState) :
    (save_local_ops VECTOR_STORE_DIR).all (fun op => !(isRename op)) = true ∧
    (save_local_ops VECTOR_STORE_DIR).any (writesInto VECTOR_STORE_DIR) = true ∧
    List.foldl applyOp fs0 (save_local_ops VECTOR_STORE_DIR) = fsFull ∧
    List.foldl applyOp fs0 ((save_local_ops VECTOR_STORE_DIR).take 2) =
      ⟨true, true, fs0.pklExists⟩ := by
  rcases fs0 with ⟨d, f, p⟩
  exact ⟨rfl, rfl, rfl, rfl⟩

/-! ### C2: rebuild -/

/-- C2 counterexample: starting the rebuild script from a valid persisted
index, the state right after `shutil.rmtree` (position 1, strictly before
the final state) has neither the old nor the new index. -/
theorem rebuild_deletion_window_cex :
    vector_store_exists fsFull = true ∧
    (rebuildStates fsFull true)[1]? = some fsEmpty ∧
    vector_store_exists fsEmpty = false ∧
    1 + 1 < (rebuildStates fsFull true).length := by
  decide

/-- C2 amended: when the build pipeline succeeds, a rebuild run to
completion always ends in a structurally valid index, and running it again
from that state ends valid as well; but the rebuild deletes the old index
before building the new one, so interruption between the delete and the
completed save leaves neither index (see the counterexample). -/
theorem rebuild_completion_valid (fs0 : FsState) :
    (rebuildStates fs0 true).getLast? = some fsFull ∧
    vector_store_exists fsFull = true ∧
    (rebuildStates fsFull true).getLast? = some fsFull := by
  rcases fs0 with ⟨d, f, p⟩
  cases d
  · exact ⟨rfl, rfl, rfl⟩
  · exact ⟨rfl, rfl, rfl⟩

/-! ### C4: when does the query path treat the index as absent -/

/-- C4 counterexample: with the index directory present but both required
files missing, `vector_store_exists` reports no index, yet
`retrieve_answer` does not build — it goes straight to loading, whose
failure it reports; the build stage's marker message never surfaces. -/
theorem index_check_ignores_required_files_cex :
    vector_store_exists fsPartial = false ∧
    retrieve_answer envPartial "q" 3 =
      "Error retrieving information: could not load index" ∧
    retrieve_answer envPartial "q" 3 ≠
      "Error retrieving information: create_vector_store was invoked" := by
  decide

/-- C4 amended: the query path of `retrieve_answer` treats the persisted
index as absent exactly when the index directory itself is missing: when
the directory exists the build outcome is irrelevant (no build is
attempted), regardless of the two required files, and when the directory is
missing a failing build surfaces as the service's error string. The
two-required-files check exists only in `vector_store_exists`, which the
query path does not consult. -/
theorem index_check_dir_only :
    (∀ (env : RagEnv) (q : String) (k : Nat) (b1 b2 : Except String Unit),
      env.fs.dirExists = true →
      retrieve_answer (withBuild env b1) q k = retrieve_answer (withBuild env b2) q k) ∧
    (∀ (env : RagEnv) (q : String) (k : Nat) (e : String),
      env.fs.dirExists = false → env.buildOutcome = Except.error e →
      retrieve_answer env q k = "Error retrieving information: " ++ e) := by
  constructor
  · intro env q k b1 b2 h
    simp [retrieve_answer, ragStages, withBuild, h]
  · intro env q k e h1 h2
    simp [retrieve_answer, ragStages, h1, h2]

/-- C4 witness. -/
theorem index_check_dir_only_witness :
    retrieve_answer (withBuild envDirOnly (Except.error "x")) "q" 3 =
      retrieve_answer (withBuild envDirOnly (Except.ok ())) "q" 3 ∧
    retrieve_answer envNoDir "q" 3 = "Error retrieving information: " ++ "build failed" :=
  ⟨index_check_dir_only.1 envDirOnly "q" 3 (Except.error "x") (Except.ok ()) rfl,
   index_check_dir_only.2 envNoDir "q" 3 "build failed" rfl rfl⟩

/-! ### C5: math lines of the formatter -/

/-- C5 counterexample: the input line `"E = mc^2"` padded with trailing
spaces to exactly 100 characters contains `=` but is not under 100
characters, so the claim requires an inline wrap of the line; the code
strips the line first and emits the display block `$$E = mc^2$$`. -/
theorem format_latex_long_line_cex :
    longEqLine.length = 100 ∧ ¬ longEqLine.length < 100 ∧
    hasMathChar longEqLine = true ∧
    format_latex longEqLine = "$$E = mc^2$$" ∧
    ("$$" : String).data.isPrefixOf (format_latex longEqLine).data = true ∧
    format_latex longEqLine ≠ "$" ++ longEqLine ++ "$" := by
  decide

/-- C5 amended: each line is first stripped of surrounding whitespace; a
stripped non-blank line carrying a math symbol or a LaTeX-command pattern
is wrapped as a display block exactly when it contains at least one `=`
and its stripped length is under 100 characters, and as inline math
otherwise; in particular `format_latex "E = mc^2" = "$$E = mc^2$$"`. -/
theorem format_latex_math_wrap :
    (∀ line : String, pyStrip line = line → line ≠ "" → hasMarker line = true →
      formatLines [line] =
        [if 1 ≤ countChar '=' line ∧ line.length < 100
         then "$$" ++ line ++ "$$" else "$" ++ line ++ "$"]) ∧
    format_latex "E = mc^2" = "$$E = mc^2$$" := by
  constructor
  · intro line h1 h2 h3
    simp [formatLines, formatLine, h1, h2, h3]
  · decide

/-- C5 witness. -/
theorem format_latex_math_wrap_witness :
    formatLines ["E = mc^2"] =
      [if 1 ≤ countChar '=' "E = mc^2" ∧ ("E = mc^2" : String).length < 100
       then "$$" ++ "E = mc^2" ++ "$$" else "$" ++ "E = mc^2" ++ "$"] :=
  format_latex_math_wrap.1 "E = mc^2" (by decide) (by decide) (by decide)

/-! ### C6: pass-through lines of the formatter -/

/-- C6 counterexample: the input line `"  just text"` has no math marker,
yet it does not pass through unchanged — the code strips it to
`"just text"`. -/
theorem format_latex_whitespace_cex :
    hasMarker "  just text" = false ∧
    format_latex "  just text" = "just text" ∧
    "just text" ≠ "  just text" := by
  decide

/-- C6 amended: each line is first stripped of surrounding whitespace; a
stripped non-blank line with no math marker passes through unchanged, and
lines that are blank after stripping are dropped from the output; in
particular `format_latex "just text" = "just text"`. -/
theorem format_latex_passthrough :
    (∀ line : String, pyStrip line = line → line ≠ "" → hasMarker line = false →
      formatLines [line] = [line]) ∧
    (∀ raw : String, pyStrip raw = "" → formatLines [raw] = []) ∧
    format_latex "just text" = "just text" := by
  refine ⟨?_, ?_, by decide⟩
  · intro line h1 h2 h3
    simp [formatLines, List.filterMap, h1, h2, formatLine, h3]
  · intro raw h
    simp [formatLines, List.filterMap, h]

/-- C6 witness. -/
theorem format_latex_passthrough_witness :
    formatLines ["just text"] = ["just text"] ∧ formatLines ["   "] = [] :=
  ⟨format_latex_passthrough.1 "just text" (by decide) (by decide) (by decide),
   format_latex_passthrough.2.1 "   " (by decide)⟩

/-! ### C3, C9, C10: the retrieval service boundary -/

theorem formatBlock_ne_empty (i : Nat) (d : Document) : formatBlock i d ≠ "" := by
  unfold formatBlock
  apply str_ne_empty_left
  apply str_ne_empty_left
  apply str_ne_empty_left
  apply str_ne_empty_left
  apply str_ne_empty_left
  decide

theorem joinSep_cons_ne_empty (sep b : String) (bs : List String) (h : b ≠ "") :
    joinSep sep (b :: bs) ≠ "" := by
  cases bs with
  | nil => simpa [joinSep] using h
  | cons c cs =>
    show b ++ sep ++ joinSep sep (c :: cs) ≠ ""
    exact str_ne_empty_left _ _ (str_ne_empty_left _ _ h)

theorem retrieve_answer_ne_empty (env : RagEnv) (q : String) (k : Nat) :
    retrieve_answer env q k ≠ "" := by
  cases h : ragStages env q k with
  | error e =>
    have he : retrieve_answer env q k = "Error retrieving information: " ++ e := by
      simp [retrieve_answer, h]
    rw [he]
    exact str_ne_empty_left _ _ (by decide)
  | ok l =>
    cases l with
    | nil =>
      have he : retrieve_answer env q k =
          "No relevant information found in the documents." := by
        simp [retrieve_answer, h]
      rw [he]
      decide
    | cons d ds =>
      have he : retrieve_answer env q k =
          joinSep "\n\n---\n\n" (formatBlocks (d :: ds)) := by
        simp [retrieve_answer, h]
      rw [he]
      have hb : formatBlocks (d :: ds) =
          formatBlock 1 d :: (numberFrom 2 ds).map (fun p => formatBlock p.1 p.2) := rfl
      rw [hb]
      exact joinSep_cons_ne_empty _ _ _ (formatBlock_ne_empty 1 d)

/-- C3: for every environment, query and `k`, `retrieve_answer` is total:
when any stage of the chain (build-if-absent, embed, load, search) raises,
the exception is caught and converted into the error string carrying its
message; otherwise the result is the fixed no-results message or the joined
source blocks. It never raises past the service boundary. -/
theorem retrieve_answer_always_returns_string (env : RagEnv) (q : String) (k : Nat) :
    (∃ e, ragStages env q k = Except.error e ∧
      retrieve_answer env q k = "Error retrieving information: " ++ e) ∨
    (∃ l, ragStages env q k = Except.ok l ∧
      retrieve_answer env q k =
        (if l.isEmpty then "No relevant information found in the documents."
         else joinSep "\n\n---\n\n" (formatBlocks l))) := by
  cases h : ragStages env q k with
  | error e => exact Or.inl ⟨e, rfl, by simp [retrieve_answer, h]⟩
  | ok l => exact Or.inr ⟨l, rfl, by simp [retrieve_answer, h]⟩

/-- C9: when the similarity search succeeds and returns zero results,
`retrieve_answer` returns the fixed no-relevant-information message, not an
empty join and not an error. -/
theorem retrieve_answer_no_results_message (env : RagEnv) (q : String) (k : Nat)
    (h : ragStages env q k = Except.ok []) :
    retrieve_answer env q k = "No relevant information found in the documents." := by
  simp [retrieve_answer, h]

/-- C9 witness: an environment whose (empty) index search succeeds with no
results is not an error. -/
theorem retrieve_answer_no_results_message_witness :
    ragStages envEmptyIndexSearch "query" 3 = Except.ok [] ∧
    retrieve_answer envEmptyIndexSearch "query" 3 =
      "No relevant information found in the documents." :=
  ⟨rfl, retrieve_answer_no_results_message envEmptyIndexSearch "query" 3 rfl⟩

/-- C10: `retrieve_answer` never returns the empty string — its result is an
error string carrying the fixed prefix, the fixed no-results message, or the
non-empty join of source blocks — and consequently the `rag` HTTP handler's
fallback branch for an empty context is never taken: the handler always
returns `retrieve_answer`'s value unchanged. -/
theorem retrieve_answer_nonempty (env : RagEnv) (q : String) (k : Nat) :
    retrieve_answer env q k ≠ "" ∧
    ((∃ e, retrieve_answer env q k = "Error retrieving information: " ++ e) ∨
      retrieve_answer env q k = "No relevant information found in the documents." ∨
      (∃ l, l ≠ [] ∧ ragStages env q k = Except.ok l ∧
        retrieve_answer env q k = joinSep "\n\n---\n\n" (formatBlocks l))) ∧
    rag_endpoint env q = retrieve_answer env q 3 := by
  refine ⟨retrieve_answer_ne_empty env q k, ?_, ?_⟩
  · cases h : ragStages env q k with
    | error e => exact Or.inl ⟨e, by simp [retrieve_answer, h]⟩
    | ok l =>
      cases l with
      | nil => exact Or.inr (Or.inl (by simp [retrieve_answer, h]))
      | cons d ds =>
        exact Or.inr (Or.inr ⟨d :: ds, List.cons_ne_nil d ds, rfl,
          by simp [retrieve_answer, h]⟩)
  · simp [rag_endpoint, retrieve_answer_ne_empty env q 3]

/-! ### C8: document loading -/

/-- C8: the loading step skips missing files without failing the batch,
concatenates the pages of existing files in path order, and fails with the
ingest error exactly when zero pages were loaded across all documents. -/
theorem load_documents_contract (fe : String → Bool) (lp : String → List Page)
    (paths : List String) :
    ((∃ e, loadStage fe lp paths = Except.error e) ↔ loadAllDocs fe lp paths = []) ∧
    (∀ p ps, fe p = false → loadAllDocs fe lp (p :: ps) = loadAllDocs fe lp ps) ∧
    (∀ p ps, fe p = true → loadAllDocs fe lp (p :: ps) = lp p ++ loadAllDocs fe lp ps) ∧
    (loadStage fe lp paths = Except.error "No documents loaded from PDFs" ∨
      loadStage fe lp paths = Except.ok (loadAllDocs fe lp paths)) := by
  refine ⟨?_, ?_, ?_, ?_⟩
  · constructor
    · rintro ⟨e, he⟩
      by_cases hemp : (loadAllDocs fe lp paths).isEmpty
      · exact List.isEmpty_iff.mp hemp
      · simp [loadStage, hemp] at he
    · intro h
      exact ⟨"No documents loaded from PDFs", by simp [loadStage, h]⟩
  · intro p ps h
    simp [loadAllDocs, h]
  · intro p ps h
    simp [loadAllDocs, h]
  · by_cases hemp : (loadAllDocs fe lp paths).isEmpty
    · exact Or.inl (by simp [loadStage, hemp])
    · exact Or.inr (by simp [loadStage, hemp])

/-- C8 witness: a missing file is skipped; an existing file's pages are
prepended in order. -/
theorem load_documents_contract_witness :
    loadAllDocs fe0 lp0 ["missing.pdf", "present.pdf"] =
      loadAllDocs fe0 lp0 ["present.pdf"] ∧
    loadAllDocs fe0 lp0 ["present.pdf"] = lp0 "present.pdf" ++ loadAllDocs fe0 lp0 [] :=
  ⟨(load_documents_contract fe0 lp0 ["missing.pdf", "present.pdf"]).2.1
      "missing.pdf" ["present.pdf"] rfl,
   (load_documents_contract fe0 lp0 ["present.pdf"]).2.2.1 "present.pdf" [] rfl⟩

/-! ### C7: chunker invariants -/

theorem singletonStr_length (c : Char) : (singletonStr c).length = 1 := rfl

theorem recSplit_of_le (seps : List String) (t : String) (h : t.length ≤ chunkSize) :
    recSplit seps t = [t] := by
  cases seps with
  | nil => rfl
  | cons s rest => simp [recSplit, h]

theorem recSplit_length_le :
    ∀ seps : List String, "" ∈ seps →
      ∀ t : String, ∀ p ∈ recSplit seps t, p.length ≤ chunkSize := by
  intro seps
  induction seps with
  | nil => intro h; exact absurd h (List.not_mem_nil "")
  | cons s rest ih =>
    intro h t p hp
    by_cases hl : t.length ≤ chunkSize
    · rw [recSplit_of_le (s :: rest) t hl, List.mem_singleton] at hp
      subst hp
      exact hl
    · simp only [recSplit, if_neg hl, List.mem_flatMap] at hp
      obtain ⟨q, hq, hpq⟩ := hp
      by_cases hs : s = ""
      · subst hs
        simp only [splitBySep, if_pos, List.mem_map] at hq
        obtain ⟨c, hc, rfl⟩ := hq
        rw [recSplit_of_le rest (singletonStr c)
          (by rw [singletonStr_length]; decide), List.mem_singleton] at hpq
        subst hpq
        rw [singletonStr_length]
        decide
      · have hrest : "" ∈ rest := by
          rcases List.mem_cons.mp h with h1 | h1
          · exact absurd h1.symm hs
          · exact h1
        exact ih hrest q p hpq

theorem strTakeRight_length_le (n : Nat) (s : String) :
    (strTakeRight n s).length ≤ n := by
  show (s.data.drop (s.data.length - n)).length ≤ n
  rw [List.length_drop]
  omega

theorem strTakeRight_data_suffix (n : Nat) (s : String) :
    (strTakeRight n s).data <:+ s.data := by
  show s.data.drop (s.data.length - n) <:+ s.data
  exact ⟨s.data.take (s.data.length - n), List.take_append_drop _ _⟩

theorem mergeAnnot_length_le :
    ∀ (ps : List String) (ov body : String),
      (∀ p ∈ ps, p.length ≤ chunkSize) →
      ov.length + body.length ≤ chunkSize →
      ∀ ob ∈ mergeAnnot ps ov body, ob.1.length + ob.2.length ≤ chunkSize := by
  intro ps
  induction ps with
  | nil =>
    intro ov body hps hcur ob hob
    simp only [mergeAnnot] at hob
    split at hob
    · exact absurd hob (List.not_mem_nil ob)
    · rw [List.mem_singleton] at hob
      subst hob
      exact hcur
  | cons p ps ih =>
    intro ov body hps hcur ob hob
    have hp : p.length ≤ chunkSize := hps p (List.mem_cons_self p ps)
    have hps2 : ∀ x ∈ ps, x.length ≤ chunkSize :=
      fun x hx => hps x (List.mem_cons_of_mem p hx)
    simp only [mergeAnnot] at hob
    split at hob
    · rename_i h1
      refine ih ov (body ++ p) hps2 ?_ ob hob
      rw [str_length_append] at h1 ⊢
      omega
    · rename_i h1
      split at hob
      · rename_i h2
        rcases List.mem_cons.mp hob with h3 | h3
        · subst h3
          exact hcur
        · exact ih _ p hps2 h2 ob h3
      · rename_i h2
        rcases List.mem_cons.mp hob with h3 | h3
        · subst h3
          exact hcur
        · refine ih "" p hps2 ?_ ob h3
          have h0 : ("" : String).length = 0 := rfl
          omega

theorem mergeAnnot_head_ov :
    ∀ (ps : List String) (ov body : String) (x : String × String)
      (l : List (String × String)),
      mergeAnnot ps ov body = x :: l → x.1 = ov := by
  intro ps
  induction ps with
  | nil =>
    intro ov body x l h
    simp only [mergeAnnot] at h
    split at h
    · exact absurd h (by simp)
    · injection h with h1 h2
      subst h1
      rfl
  | cons p ps ih =>
    intro ov body x l h
    simp only [mergeAnnot] at h
    split at h
    · exact ih _ _ x l h
    · split at h
      · injection h with h1 h2
        subst h1
        rfl
      · injection h with h1 h2
        subst h1
        rfl

theorem mergeAnnot_chain :
    ∀ (ps : List String) (ov body : String),
      List.Chain' overlapRel (mergeAnnot ps ov body) := by
  intro ps
  induction ps with
  | nil =>
    intro ov body
    simp only [mergeAnnot]
    split
    · exact List.chain'_nil
    · exact List.chain'_singleton _
  | cons p ps ih =>
    intro ov body
    simp only [mergeAnnot]
    split
    · exact ih ov (body ++ p)
    · split
      · refine List.chain'_cons'.mpr ⟨?_, ih _ p⟩
        intro y hy
        cases hl : mergeAnnot ps (strTakeRight chunkOverlap (ov ++ body)) p with
        | nil => rw [hl] at hy; simp at hy
        | cons x l2 =>
          rw [hl] at hy
          simp at hy
          subst hy
          have hx := mergeAnnot_head_ov ps _ p x l2 hl
          refine ⟨?_, ?_, ?_⟩
          · rw [hx]
            exact strTakeRight_length_le _ _
          · rw [hx]
            exact strTakeRight_data_suffix _ _
          · rw [str_data_append]
            exact List.prefix_append _ _
      · refine List.chain'_cons'.mpr ⟨?_, ih "" p⟩
        intro y hy
        cases hl : mergeAnnot ps "" p with
        | nil => rw [hl] at hy; simp at hy
        | cons x l2 =>
          rw [hl] at hy
          simp at hy
          subst hy
          have hx := mergeAnnot_head_ov ps "" p x l2 hl
          refine ⟨?_, ?_, ?_⟩
          · rw [hx]
            decide
          · rw [hx]
            exact List.nil_suffix
          · rw [str_data_append]
            exact List.prefix_append _ _

/-- C7: over any page text, every chunk the splitter model produces has
length at most 800, and each chunk after the first carries an overlap of
at least 0 and at most 100 characters that is a suffix of the previous
chunk and a prefix of its own text; splitting proceeds over the configured
separator cascade paragraph break, line break, period+space, space, empty
string. Spec-modelled: the splitting algorithm itself is langchain's
`RecursiveCharacterTextSplitter`; only its configuration is in the
source. -/
theorem chunker_invariants (t : String) :
    (∀ c ∈ chunkText t, c.length ≤ chunkSize) ∧
    List.Chain' overlapRel (pageChunkAnnots t) ∧
    chunkSize = 800 ∧ chunkOverlap = 100 ∧
    separators = ["\n\n", "\n", ". ", " ", ""] := by
  refine ⟨?_, mergeAnnot_chain (recSplit separators t) "" "", rfl, rfl, rfl⟩
  intro c hc
  simp only [chunkText, List.mem_map] at hc
  obtain ⟨ob, hob, rfl⟩ := hc
  rw [str_length_append]
  exact mergeAnnot_length_le (recSplit separators t) "" ""
    (recSplit_length_le separators (by decide) t) (by decide) ob hob

/-- C7 witness. -/
theorem chunker_invariants_witness :
    ("hello" : String).length ≤ chunkSize ∧
    List.Chain' overlapRel (pageChunkAnnots "hello") :=
  ⟨(chunker_invariants "hello").1 "hello" (by decide),
   (chunker_invariants "hello").2.1⟩

end RAGEngine
